import Mathlib

/-!
Shallow embedding of `parallel_wavegan/bin/train.py` (ParallelWaveGAN trainer).

The file embeds the two verifiable cores of the script:

* `CustomCollater` — the batch collater: per-item alignment / random cropping
  (the loop body of `CustomCollater.__call__`, lines 55-67), the alignment
  assertion `_assert_ready_for_upsampling`, trailing zero padding
  (`_pad_2darray`) and batch assembly (lines 70-88).
* the training loop of `main` (lines 162-197): per-batch generator update,
  gated discriminator update (`global_steps > discriminator_start_iter`),
  epoch-level increment of `global_steps` and the termination test
  `global_steps >= config[iters]`.

Modelling conventions:
* numpy float arrays become lists over an arbitrary scalar type `α` with a
  zero (the claims are about lengths and zero padding, not float values);
* a Python `assert` failure or an exception (`np.random.randint` with an
  empty interval, `max([])`) is `none` of an `Option` result;
* the draw `np.random.randint(lo, hi)` is modelled by an explicit
  `start_frame` argument: the function returns a result only when
  `lo <= start_frame < hi`, exactly the set of values the draw can produce,
  and fails for every argument when the interval is empty, as `randint` does;
* the opaque neural collaborators (generator / discriminator forward,
  losses, RAdam, StepLR) are abstract state-update functions: the spec
  declares them external interfaces, and the claims are about the gating
  and state threading around them, which the embedding keeps exactly.
-/

/-- Scalar samples: audio is a list of samples, a feature sequence is a list
of frames, each frame a list of `D` coefficients. -/
abbrev Audio (α : Type) := List α

abbrev Feats (α : Type) := List (List α)

/-- Python slice `xs[lo:hi]` for non-negative indices `lo`, `hi`. -/
def pySlice {α : Type} (xs : List α) (lo hi : ℕ) : List α :=
  (xs.drop lo).take (hi - lo)

theorem pySlice_length {α : Type} (xs : List α) (lo hi : ℕ) :
    (pySlice xs lo hi).length = min (hi - lo) (xs.length - lo) := by
  simp [pySlice]

/-- State of `CustomCollater` after `__init__` (lines 31-38). -/
structure CustomCollater where
  batch_max_steps : ℕ
  batch_max_frames : ℕ
  hop_size : ℕ
  aux_context_window : ℕ
deriving DecidableEq, Repr

/-- `CustomCollater.__init__` (lines 31-38): `batch_max_steps` is first
rounded down to a multiple of `hop_size` when it is not one already
(`batch_max_steps += -(batch_max_steps % hop_size)`), then
`batch_max_frames = batch_max_steps // hop_size` is derived. -/
def CustomCollater.init (batch_max_steps hop_size aux_context_window : ℕ) :
    CustomCollater :=
  let bms := if batch_max_steps % hop_size ≠ 0
    then batch_max_steps - batch_max_steps % hop_size
    else batch_max_steps
  { batch_max_steps := bms
    batch_max_frames := bms / hop_size
    hop_size := hop_size
    aux_context_window := aux_context_window }

/-- `CustomCollater._assert_ready_for_upsampling` (lines 90-92):
`len(x) == (len(c) - 2 * context_window) * hop_size`, over Python integers,
hence computed in `ℤ`. -/
def assert_ready_for_upsampling (xlen clen hop_size context_window : ℕ) : Bool :=
  (xlen : ℤ) == ((clen : ℤ) - 2 * (context_window : ℤ)) * (hop_size : ℤ)

/-- The per-item body of the time-resolution-adjustment loop in
`CustomCollater.__call__` (lines 55-67): assert the raw alignment invariant
(context window 0), then, when the audio is longer than `batch_max_steps`,
crop audio and features at a frame offset `start_frame` drawn by
`np.random.randint(aux_context_window, len(c) - batch_max_frames -
aux_context_window)`, and re-assert the invariant with the configured
context window; otherwise pass the pair through unchanged. `none` models an
assertion failure or a `randint` failure on an empty interval. -/
def CustomCollater.align {α : Type} (col : CustomCollater) (start_frame : ℕ)
    (x : Audio α) (c : Feats α) : Option (Audio α × Feats α) :=
  if !assert_ready_for_upsampling x.length c.length col.hop_size 0 then none
  else if col.batch_max_steps < x.length then
    if (col.aux_context_window : ℤ) ≤ (start_frame : ℤ) ∧
        (start_frame : ℤ) <
          (c.length : ℤ) - (col.batch_max_frames : ℤ) - (col.aux_context_window : ℤ) then
      let start_step := start_frame * col.hop_size
      let x2 := pySlice x start_step (start_step + col.batch_max_steps)
      let c2 := pySlice c (start_frame - col.aux_context_window)
        (start_frame + col.aux_context_window + col.batch_max_frames)
      if !assert_ready_for_upsampling x2.length c2.length col.hop_size
          col.aux_context_window then none
      else some (x2, c2)
    else none
  else some (x, c)

/-- The whole time-resolution-adjustment loop of `__call__` (lines 54-68):
align every pair of the batch, item `i` using the random draw `draws i`. -/
def CustomCollater.alignBatch {α : Type} (col : CustomCollater) (draws : ℕ → ℕ) :
    ℕ → List (Audio α × Feats α) → Option (List (Audio α × Feats α))
  | _, [] => some []
  | i, (x, c) :: rest => do
    let p ← col.align (draws i) x c
    let ps ← col.alignBatch draws (i + 1) rest
    pure (p :: ps)

/-- `CustomCollater._pad_2darray` (lines 94-97) with the default `b_pad=0`,
`constant_values=0`: pad a 2-D array of `rowdim`-wide rows with trailing
all-zero rows up to `max_len` rows. -/
def pad_2darray {α : Type} [Zero α] (rowdim : ℕ) (x : List (List α))
    (max_len : ℕ) : List (List α) :=
  x ++ List.replicate (max_len - x.length) (List.replicate rowdim (0 : α))

/-- `_pad_2darray` applied to `b[0].reshape(-1, 1)` (line 73), flattened back
after the `(B, T, 1) -> (B, 1, T)` transpose: trailing zero padding of the
audio up to `max_len` samples. -/
def padAudio {α : Type} [Zero α] (x : Audio α) (max_len : ℕ) : Audio α :=
  x ++ List.replicate (max_len - x.length) (0 : α)

/-- The four tensors returned by `CustomCollater.__call__` (line 88), with
the channel axes of size 1 flattened away: noise `z_batch : (B, T)`,
conditioning `c_batch : (B, T1, D)`, target `y_batch : (B, T)`, and the
per-item pre-padding audio lengths `input_lengths : (B,)`. -/
structure CollateOut (α : Type) where
  z_batch : List (Audio α)
  c_batch : List (Feats α)
  y_batch : List (Audio α)
  input_lengths : List ℕ
deriving DecidableEq, Repr

/-- `CustomCollater.__call__` (lines 40-88): align/crop every pair, compute
the per-batch maximum audio and feature lengths, pad every item to them with
trailing zeros, draw a noise tensor of the same shape as the padded target
tensor (`torch.randn(y_batch.size())`, entry `(i, t)` modelled by
`noise i t`), and emit the pre-padding lengths. `max` of an empty Python
list raises, hence `none` on an empty batch. `D` is the feature row width
of the numpy feature arrays. -/
def CustomCollater.call {α : Type} [Zero α] (col : CustomCollater)
    (draws : ℕ → ℕ) (noise : ℕ → ℕ → α) (D : ℕ)
    (batch : List (Audio α × Feats α)) : Option (CollateOut α) := do
  let nb ← col.alignBatch draws 0 batch
  if nb.isEmpty then none
  else
    let xlens := nb.map (fun b => b.1.length)
    let max_olen := xlens.foldr Nat.max 0
    let y_batch := nb.map (fun b => padAudio b.1 max_olen)
    let clens := nb.map (fun b => b.2.length)
    let max_clen := clens.foldr Nat.max 0
    let c_batch := nb.map (fun b => pad_2darray D b.2 max_clen)
    let z_batch := (List.range y_batch.length).map
      (fun i => (List.range max_olen).map (noise i))
    pure ⟨z_batch, c_batch, y_batch, xlens⟩

/-- The two scalar configuration values of `main` the training loop reads
(lines 182 and 196): `config[discriminator_start_iter]` and `config[iters]`. -/
structure TrainConfig where
  discriminator_start_iter : ℕ
  iters : ℕ
deriving DecidableEq, Repr

/-- The mutable training state of `main` apart from `global_steps`: the two
networks, their optimizers and their schedulers (lines 148-160), all opaque
collaborators, so their types are parameters. -/
structure NetState (G D OG OD SG SD : Type) where
  model_g : G
  model_d : D
  optimizer_g : OG
  optimizer_d : OD
  schedular_g : SG
  schedular_d : SD
deriving DecidableEq, Repr

/-- One inner iteration of the training loop (lines 168-193) for one batch
`b` at the current `global_steps`. `genStep` is the opaque generator update
(forward passes, losses, zero_grad / backward / clip / step / scheduler
step, lines 169-180); `discStep` is the opaque discriminator update (lines
183-193), which consumes the pre-update generator (the fake audio was
produced before `optimizer_g.step()`), and runs only when
`global_steps > discriminator_start_iter` (line 182). -/
def train_inner_step {B G D OG OD SG SD : Type} (cfg : TrainConfig)
    (genStep : B → G × OG × SG → G × OG × SG)
    (discStep : B → G → D × OD × SD → D × OD × SD)
    (global_steps : ℕ) (s : NetState G D OG OD SG SD) (b : B) :
    NetState G D OG OD SG SD :=
  let g := genStep b (s.model_g, s.optimizer_g, s.schedular_g)
  if global_steps > cfg.discriminator_start_iter then
    let d := discStep b s.model_g (s.model_d, s.optimizer_d, s.schedular_d)
    ⟨g.1, d.1, g.2.1, d.2.1, g.2.2, d.2.2⟩
  else
    ⟨g.1, s.model_d, g.2.1, s.optimizer_d, g.2.2, s.schedular_d⟩

/-- One full pass over the training set (the `for` loop, lines 168-194):
fold the inner step over the batches of this pass; `global_steps` is not
touched inside the pass. -/
def train_epoch {B G D OG OD SG SD : Type} (cfg : TrainConfig)
    (genStep : B → G × OG × SG → G × OG × SG)
    (discStep : B → G → D × OD × SD → D × OD × SD)
    (global_steps : ℕ) (batches : List B) (s : NetState G D OG OD SG SD) :
    NetState G D OG OD SG SD :=
  batches.foldl (train_inner_step cfg genStep discStep global_steps) s

/-- The `while True` loop of `main` (lines 167-197): run a pass at the
current `global_steps` (the batches of pass `n` are `data n`, the shuffled
loader), increment `global_steps`, stop as soon as
`global_steps >= config[iters]`. Returns the final `global_steps` and net
state. -/
def train_loop {B G D OG OD SG SD : Type} (cfg : TrainConfig)
    (genStep : B → G × OG × SG → G × OG × SG)
    (discStep : B → G → D × OD × SD → D × OD × SD)
    (data : ℕ → List B) (global_steps : ℕ) (s : NetState G D OG OD SG SD) :
    ℕ × NetState G D OG OD SG SD :=
  let s2 := train_epoch cfg genStep discStep global_steps (data global_steps) s
  if h : global_steps + 1 ≥ cfg.iters then (global_steps + 1, s2)
  else train_loop cfg genStep discStep data (global_steps + 1) s2
termination_by cfg.iters - global_steps
decreasing_by omega

theorem CustomCollater.init_hop_size (bms hs w : ℕ) :
    (CustomCollater.init bms hs w).hop_size = hs := rfl

theorem CustomCollater.init_aux_context_window (bms hs w : ℕ) :
    (CustomCollater.init bms hs w).aux_context_window = w := rfl

/-- After `__init__`, `batch_max_steps` is `batch_max_steps` rounded down to
the nearest multiple of `hop_size`. -/
theorem CustomCollater.init_batch_max_steps (bms hs w : ℕ) :
    (CustomCollater.init bms hs w).batch_max_steps = hs * (bms / hs) := by
  have hdm := Nat.div_add_mod bms hs
  show (if bms % hs ≠ 0 then bms - bms % hs else bms) = hs * (bms / hs)
  by_cases h0 : bms % hs = 0 <;> simp [h0] <;> omega

theorem CustomCollater.init_batch_max_frames (bms hs w : ℕ) (h : 0 < hs) :
    (CustomCollater.init bms hs w).batch_max_frames = bms / hs := by
  have hfr : (CustomCollater.init bms hs w).batch_max_frames
      = (CustomCollater.init bms hs w).batch_max_steps / hs := rfl
  rw [hfr, CustomCollater.init_batch_max_steps bms hs w,
    Nat.mul_div_cancel_left _ h]

/-- After `__init__`, `batch_max_steps = batch_max_frames * hop_size`. -/
theorem CustomCollater.init_steps_eq (bms hs w : ℕ) (h : 0 < hs) :
    (CustomCollater.init bms hs w).batch_max_steps
      = (CustomCollater.init bms hs w).batch_max_frames * hs := by
  rw [CustomCollater.init_batch_max_steps bms hs w,
    CustomCollater.init_batch_max_frames bms hs w h, Nat.mul_comm]

/-- A pair whose audio is not longer than `batch_max_steps` and which
satisfies the raw alignment invariant passes through the aligner unchanged. -/
theorem align_pass_eq {α : Type} (col : CustomCollater) (sf : ℕ)
    (x : Audio α) (c : Feats α)
    (hinv : x.length = c.length * col.hop_size)
    (hle : x.length ≤ col.batch_max_steps) :
    col.align sf x c = some (x, c) := by
  have h0 : assert_ready_for_upsampling x.length c.length col.hop_size 0 = true := by
    simp only [assert_ready_for_upsampling, beq_iff_eq]
    push_cast [hinv]
    ring
  simp [CustomCollater.align, h0, Nat.not_lt.mpr hle]

/-- If the crop branch is taken and the aligner succeeds, the result is the
pair of Python slices, the random frame offset was inside the valid
interval, the raw invariant held, and the re-asserted invariant with the
configured context window holds of the result. -/
theorem align_crop_elim {α : Type} {col : CustomCollater} {sf : ℕ}
    {x : Audio α} {c : Feats α} {x2 : Audio α} {c2 : Feats α}
    (hlt : col.batch_max_steps < x.length)
    (hsome : col.align sf x c = some (x2, c2)) :
    x.length = c.length * col.hop_size ∧
    col.aux_context_window ≤ sf ∧
    sf + col.batch_max_frames + col.aux_context_window < c.length ∧
    x2 = pySlice x (sf * col.hop_size) (sf * col.hop_size + col.batch_max_steps) ∧
    c2 = pySlice c (sf - col.aux_context_window)
      (sf + col.aux_context_window + col.batch_max_frames) ∧
    (x2.length : ℤ) = ((c2.length : ℤ) - 2 * col.aux_context_window) * col.hop_size := by
  cases hA : assert_ready_for_upsampling x.length c.length col.hop_size 0 with
  | false => simp [CustomCollater.align, hA] at hsome
  | true =>
    have hraw : x.length = c.length * col.hop_size := by
      have h0 : (x.length : ℤ) = ((c.length : ℤ) - 2 * ((0 : ℕ) : ℤ)) * col.hop_size := by
        simpa [assert_ready_for_upsampling, beq_iff_eq] using hA
      have h1 : (x.length : ℤ) = ((c.length * col.hop_size : ℕ) : ℤ) := by
        rw [h0]; push_cast; ring
      exact_mod_cast h1
    simp only [CustomCollater.align, hA, Bool.not_true, Bool.false_eq_true,
      if_false] at hsome
    rw [if_pos hlt] at hsome
    by_cases hr : (col.aux_context_window : ℤ) ≤ (sf : ℤ) ∧
        (sf : ℤ) < (c.length : ℤ) - (col.batch_max_frames : ℤ) - (col.aux_context_window : ℤ)
    · rw [if_pos hr] at hsome
      cases hA2 : assert_ready_for_upsampling
          (pySlice x (sf * col.hop_size) (sf * col.hop_size + col.batch_max_steps)).length
          (pySlice c (sf - col.aux_context_window)
            (sf + col.aux_context_window + col.batch_max_frames)).length
          col.hop_size col.aux_context_window with
      | false => simp [hA2] at hsome
      | true =>
        simp only [hA2, Bool.not_true, Bool.false_eq_true, if_false,
          Option.some_inj, Prod.mk.injEq] at hsome
        obtain ⟨hx2, hc2⟩ := hsome
        have hid : (x2.length : ℤ) =
            ((c2.length : ℤ) - 2 * col.aux_context_window) * col.hop_size := by
          rw [← hx2, ← hc2]
          simpa [assert_ready_for_upsampling, beq_iff_eq] using hA2
        refine ⟨hraw, ?_, ?_, hx2.symm, hc2.symm, hid⟩
        · exact_mod_cast hr.1
        · have := hr.2
          push_cast at this
          omega
    · rw [if_neg hr] at hsome
      exact absurd hsome (by simp)

/-- If the audio is not longer than `batch_max_steps` and the aligner
succeeds, the output pair is the input pair and the raw invariant held. -/
theorem align_pass_elim {α : Type} {col : CustomCollater} {sf : ℕ}
    {x : Audio α} {c : Feats α} {x2 : Audio α} {c2 : Feats α}
    (hle : x.length ≤ col.batch_max_steps)
    (hsome : col.align sf x c = some (x2, c2)) :
    x2 = x ∧ c2 = c ∧ x.length = c.length * col.hop_size := by
  cases hA : assert_ready_for_upsampling x.length c.length col.hop_size 0 with
  | false => simp [CustomCollater.align, hA] at hsome
  | true =>
    have hraw : x.length = c.length * col.hop_size := by
      have h0 : (x.length : ℤ) = ((c.length : ℤ) - 2 * ((0 : ℕ) : ℤ)) * col.hop_size := by
        simpa [assert_ready_for_upsampling, beq_iff_eq] using hA
      have h1 : (x.length : ℤ) = ((c.length * col.hop_size : ℕ) : ℤ) := by
        rw [h0]; push_cast; ring
      exact_mod_cast h1
    simp only [CustomCollater.align, hA, Bool.not_true, Bool.false_eq_true,
      if_false] at hsome
    rw [if_neg (Nat.not_lt.mpr hle)] at hsome
    simp only [Option.some_inj, Prod.mk.injEq] at hsome
    exact ⟨hsome.1.symm, hsome.2.symm, hraw⟩

/-- Lengths of a successful crop: the cropped feature slice has exactly
`2 * aux_context_window + batch_max_frames` frames and the cropped audio has
exactly `batch_max_frames * hop_size` samples. -/
theorem align_crop_lengths {α : Type} {col : CustomCollater} {sf : ℕ}
    {x : Audio α} {c : Feats α} {x2 : Audio α} {c2 : Feats α}
    (hlt : col.batch_max_steps < x.length)
    (hsome : col.align sf x c = some (x2, c2)) :
    c2.length = 2 * col.aux_context_window + col.batch_max_frames ∧
    x2.length = col.batch_max_frames * col.hop_size := by
  obtain ⟨_, hr1, hr2, _, hc2, hid⟩ := align_crop_elim hlt hsome
  have hc2len : c2.length = 2 * col.aux_context_window + col.batch_max_frames := by
    rw [hc2, pySlice_length]
    omega
  refine ⟨hc2len, ?_⟩
  have : (x2.length : ℤ) = (col.batch_max_frames : ℤ) * col.hop_size := by
    rw [hid, hc2len]
    push_cast
    ring
  exact_mod_cast this

/-- When the raw assertion holds, the audio is long enough to crop, the
frame offset is inside the valid interval and the re-assertion holds, the
aligner returns the two Python slices. -/
theorem align_crop_eq {α : Type} (col : CustomCollater) (sf : ℕ)
    (x : Audio α) (c : Feats α)
    (hA : assert_ready_for_upsampling x.length c.length col.hop_size 0 = true)
    (hlt : col.batch_max_steps < x.length)
    (hr : (col.aux_context_window : ℤ) ≤ (sf : ℤ) ∧
      (sf : ℤ) < (c.length : ℤ) - (col.batch_max_frames : ℤ) - (col.aux_context_window : ℤ))
    (hA2 : assert_ready_for_upsampling
      (pySlice x (sf * col.hop_size) (sf * col.hop_size + col.batch_max_steps)).length
      (pySlice c (sf - col.aux_context_window)
        (sf + col.aux_context_window + col.batch_max_frames)).length
      col.hop_size col.aux_context_window = true) :
    col.align sf x c =
      some (pySlice x (sf * col.hop_size) (sf * col.hop_size + col.batch_max_steps),
        pySlice c (sf - col.aux_context_window)
          (sf + col.aux_context_window + col.batch_max_frames)) := by
  simp only [CustomCollater.align, hA, Bool.not_true, Bool.false_eq_true, if_false]
  rw [if_pos hlt, if_pos hr]
  simp [hA2]

theorem mem_le_foldr_max {l : List ℕ} {a : ℕ} (h : a ∈ l) :
    a ≤ l.foldr Nat.max 0 := by
  induction l with
  | nil => cases h
  | cons b t ih =>
    rcases List.mem_cons.mp h with rfl | h2
    · simp only [List.foldr_cons]
      exact Nat.le_max_left _ _
    · simp only [List.foldr_cons]
      exact le_trans (ih h2) (Nat.le_max_right _ _)

theorem padAudio_length {α : Type} [Zero α] (x : Audio α) (m : ℕ) :
    (padAudio x m).length = Nat.max x.length m := by
  simp only [padAudio, List.length_append, List.length_replicate]
  unfold Nat.max
  rcases Nat.le_total x.length m with h | h
  · rw [sup_eq_right.mpr h]; omega
  · rw [sup_eq_left.mpr h]; omega

theorem pad_2darray_length {α : Type} [Zero α] (D : ℕ) (x : List (List α)) (m : ℕ) :
    (pad_2darray D x m).length = Nat.max x.length m := by
  simp only [pad_2darray, List.length_append, List.length_replicate]
  unfold Nat.max
  rcases Nat.le_total x.length m with h | h
  · rw [sup_eq_right.mpr h]; omega
  · rw [sup_eq_left.mpr h]; omega

/-- The time-resolution-adjustment loop keeps the number of batch items. -/
theorem alignBatch_length {α : Type} (col : CustomCollater) (draws : ℕ → ℕ) :
    ∀ (batch : List (Audio α × Feats α)) (i : ℕ) (nb : List (Audio α × Feats α)),
      col.alignBatch draws i batch = some nb → nb.length = batch.length := by
  intro batch
  induction batch with
  | nil =>
    intro i nb h
    simp only [CustomCollater.alignBatch, Option.some_inj] at h
    rw [← h]
  | cons p t ih =>
    intro i nb h
    obtain ⟨x, c⟩ := p
    simp only [CustomCollater.alignBatch, Option.bind_eq_bind] at h
    cases hp : col.align (draws i) x c with
    | none => rw [hp] at h; simp at h
    | some q =>
      rw [hp] at h
      cases ht : col.alignBatch draws (i + 1) t with
      | none => rw [ht] at h; simp at h
      | some qs =>
        rw [ht] at h
        simp only [Option.some_bind, pure, Option.some_inj] at h
        rw [← h, List.length_cons, List.length_cons, ih (i + 1) qs ht]

/-- Iterations with `global_steps <= discriminator_start_iter` leave the
discriminator, its optimizer and its scheduler untouched. -/
theorem train_inner_step_disc_unchanged {B G D OG OD SG SD : Type}
    (cfg : TrainConfig) (genStep : B → G × OG × SG → G × OG × SG)
    (discStep : B → G → D × OD × SD → D × OD × SD)
    (gs : ℕ) (s : NetState G D OG OD SG SD) (b : B)
    (h : gs ≤ cfg.discriminator_start_iter) :
    (train_inner_step cfg genStep discStep gs s b).model_d = s.model_d ∧
    (train_inner_step cfg genStep discStep gs s b).optimizer_d = s.optimizer_d ∧
    (train_inner_step cfg genStep discStep gs s b).schedular_d = s.schedular_d := by
  simp [train_inner_step, Nat.not_lt.mpr h]

/-- A whole pass run at `global_steps <= discriminator_start_iter` leaves
the discriminator, its optimizer and its scheduler untouched. -/
theorem train_epoch_disc_unchanged {B G D OG OD SG SD : Type}
    (cfg : TrainConfig) (genStep : B → G × OG × SG → G × OG × SG)
    (discStep : B → G → D × OD × SD → D × OD × SD) (gs : ℕ)
    (h : gs ≤ cfg.discriminator_start_iter) :
    ∀ (batches : List B) (s : NetState G D OG OD SG SD),
      (train_epoch cfg genStep discStep gs batches s).model_d = s.model_d ∧
      (train_epoch cfg genStep discStep gs batches s).optimizer_d = s.optimizer_d ∧
      (train_epoch cfg genStep discStep gs batches s).schedular_d = s.schedular_d := by
  intro batches
  induction batches with
  | nil => intro s; exact ⟨rfl, rfl, rfl⟩
  | cons b bs ih =>
    intro s
    have heq : train_epoch cfg genStep discStep gs (b :: bs) s
        = train_epoch cfg genStep discStep gs bs
          (train_inner_step cfg genStep discStep gs s b) := rfl
    rw [heq]
    obtain ⟨i1, i2, i3⟩ :=
      train_inner_step_disc_unchanged cfg genStep discStep gs s b h
    obtain ⟨e1, e2, e3⟩ := ih (train_inner_step cfg genStep discStep gs s b)
    exact ⟨e1.trans i1, e2.trans i2, e3.trans i3⟩

/-- The final `global_steps` of the loop started at `gs` is
`max (gs + 1) iters`: at least one pass always runs, the counter grows by
one per pass, and the loop stops at the first check with
`global_steps >= iters`. -/
theorem train_loop_global_steps {B G D OG OD SG SD : Type} (cfg : TrainConfig)
    (genStep : B → G × OG × SG → G × OG × SG)
    (discStep : B → G → D × OD × SD → D × OD × SD)
    (data : ℕ → List B) (gs : ℕ) (s : NetState G D OG OD SG SD) :
    (train_loop cfg genStep discStep data gs s).1 = max (gs + 1) cfg.iters := by
  rw [train_loop]
  split
  · next h =>
    dsimp only
    omega
  · next h =>
    rw [train_loop_global_steps cfg genStep discStep data (gs + 1)]
    omega
termination_by cfg.iters - gs
decreasing_by omega

/-- When every pass of the loop runs with
`global_steps <= discriminator_start_iter`, the discriminator state
survives the whole loop unchanged. -/
theorem train_loop_disc_unchanged {B G D OG OD SG SD : Type} (cfg : TrainConfig)
    (genStep : B → G × OG × SG → G × OG × SG)
    (discStep : B → G → D × OD × SD → D × OD × SD)
    (data : ℕ → List B) (gs : ℕ) (s : NetState G D OG OD SG SD)
    (h1 : gs ≤ cfg.discriminator_start_iter)
    (h2 : cfg.iters ≤ cfg.discriminator_start_iter) :
    (train_loop cfg genStep discStep data gs s).2.model_d = s.model_d ∧
    (train_loop cfg genStep discStep data gs s).2.optimizer_d = s.optimizer_d ∧
    (train_loop cfg genStep discStep data gs s).2.schedular_d = s.schedular_d := by
  rw [train_loop]
  split
  · next h =>
    dsimp only
    exact train_epoch_disc_unchanged cfg genStep discStep gs h1 (data gs) s
  · next h =>
    obtain ⟨e1, e2, e3⟩ :=
      train_epoch_disc_unchanged cfg genStep discStep gs h1 (data gs) s
    obtain ⟨l1, l2, l3⟩ := train_loop_disc_unchanged cfg genStep discStep data
      (gs + 1) (train_epoch cfg genStep discStep gs (data gs) s) (by omega) h2
    exact ⟨l1.trans e1, l2.trans e2, l3.trans e3⟩
termination_by cfg.iters - gs
decreasing_by omega

/-! ## Claim C1 -/

/-- Claim C1 (amended): for a pair satisfying the raw alignment invariant on
which the aligner succeeds, a cropped output satisfies the alignment
identity with the configured context window, while a pass-through output is
unchanged and satisfies the identity with context window 0 (the raw
invariant), not the configured one. -/
theorem aligner_output_alignment_invariant {α : Type} (col : CustomCollater)
    (sf : ℕ) (x : Audio α) (c : Feats α) (x2 : Audio α) (c2 : Feats α)
    (hinv : x.length = c.length * col.hop_size)
    (hsome : col.align sf x c = some (x2, c2)) :
    (col.batch_max_steps < x.length →
      (x2.length : ℤ) = ((c2.length : ℤ) - 2 * col.aux_context_window) * col.hop_size) ∧
    (x.length ≤ col.batch_max_steps →
      x2 = x ∧ c2 = c ∧ (x2.length : ℤ) = (c2.length : ℤ) * col.hop_size) := by
  constructor
  · intro hlt
    exact (align_crop_elim hlt hsome).2.2.2.2.2
  · intro hle
    obtain ⟨hx, hc, hraw⟩ := align_pass_elim hle hsome
    subst hx
    subst hc
    exact ⟨rfl, rfl, by exact_mod_cast hraw⟩

/-- Witness for C1 at a concrete pass-through input. -/
theorem aligner_output_alignment_invariant_witness :
    ((CustomCollater.init 4 1 0).batch_max_steps < ([(5 : ℤ)]).length →
      ((([(5 : ℤ)]).length : ℤ) =
        ((([[(7 : ℤ)]]).length : ℤ) - 2 * (CustomCollater.init 4 1 0).aux_context_window) *
          (CustomCollater.init 4 1 0).hop_size)) ∧
    (([(5 : ℤ)]).length ≤ (CustomCollater.init 4 1 0).batch_max_steps →
      [(5 : ℤ)] = [(5 : ℤ)] ∧ [[(7 : ℤ)]] = [[(7 : ℤ)]] ∧
      ((([(5 : ℤ)]).length : ℤ) =
        (([[(7 : ℤ)]]).length : ℤ) * (CustomCollater.init 4 1 0).hop_size)) :=
  aligner_output_alignment_invariant (CustomCollater.init 4 1 0) 0 [5] [[7]]
    [5] [[7]] (by decide) (by decide)

/-- Counterexample for C1 as stated: a pair of length 3 (hop 1, raw
invariant holds) passes through a collater configured with context window 1
without failing, yet the output does not satisfy the alignment identity
with the configured context window. -/
theorem aligner_passthrough_counterexample :
    assert_ready_for_upsampling ([(0 : ℤ), 0, 0]).length
      ([[(0 : ℤ)], [0], [0]]).length 1 0 = true ∧
    CustomCollater.align (α := ℤ) (CustomCollater.init 20480 1 1) 5
      [0, 0, 0] [[0], [0], [0]] = some ([0, 0, 0], [[0], [0], [0]]) ∧
    assert_ready_for_upsampling ([(0 : ℤ), 0, 0]).length
      ([[(0 : ℤ)], [0], [0]]).length 1
      (CustomCollater.init 20480 1 1).aux_context_window = false := by decide

/-! ## Claim C2 -/

/-- Claim C2: `batch_max_steps` is normalized at construction to
`hop_size * (batch_max_steps / hop_size)`, the largest multiple of
`hop_size` not exceeding it, and whenever the crop branch is taken and
succeeds the cropped audio has exactly that normalized length. -/
theorem batch_max_steps_normalized_and_crop_length {α : Type}
    (bms hs w sf : ℕ) (x : Audio α) (c : Feats α) (x2 : Audio α) (c2 : Feats α)
    (hhs : 0 < hs)
    (hlt : (CustomCollater.init bms hs w).batch_max_steps < x.length)
    (hsome : (CustomCollater.init bms hs w).align sf x c = some (x2, c2)) :
    (CustomCollater.init bms hs w).batch_max_steps = hs * (bms / hs) ∧
    x2.length = hs * (bms / hs) := by
  refine ⟨CustomCollater.init_batch_max_steps bms hs w, ?_⟩
  have h2 := (align_crop_lengths hlt hsome).2
  rw [h2, CustomCollater.init_batch_max_frames bms hs w hhs,
    CustomCollater.init_hop_size, Nat.mul_comm]

/-- Witness for C2: `batch_max_steps = 5`, `hop_size = 2` normalizes to 4,
and a crop of a 10-sample / 5-frame pair yields 4 samples. -/
theorem batch_max_steps_normalized_and_crop_length_witness :
    (CustomCollater.init 5 2 1).batch_max_steps = 2 * (5 / 2) ∧
    (List.replicate 4 (0 : ℤ)).length = 2 * (5 / 2) :=
  batch_max_steps_normalized_and_crop_length 5 2 1 1 (List.replicate 10 0)
    (List.replicate 5 [0]) (List.replicate 4 0) (List.replicate 4 [0])
    (by decide) (by decide) (by decide)

/-! ## Claim C6 -/

/-- Claim C6: a valid pair whose audio is not longer than `batch_max_steps`
passes through the aligner unchanged, and passing it through twice (with any
random draws) gives the same result as passing it once. -/
theorem aligner_passthrough_idempotent {α : Type} (col : CustomCollater)
    (sf sf2 : ℕ) (x : Audio α) (c : Feats α)
    (hinv : x.length = c.length * col.hop_size)
    (hle : x.length ≤ col.batch_max_steps) :
    col.align sf x c = some (x, c) ∧
    (col.align sf x c).bind (fun p => col.align sf2 p.1 p.2) = col.align sf x c := by
  have h1 := align_pass_eq col sf x c hinv hle
  refine ⟨h1, ?_⟩
  rw [h1]
  simpa using align_pass_eq col sf2 x c hinv hle

/-- Witness for C6 at a concrete short pair. -/
theorem aligner_passthrough_idempotent_witness :
    CustomCollater.align (α := ℤ) (CustomCollater.init 4 1 0) 0 [5] [[7]] =
      some ([5], [[7]]) ∧
    (CustomCollater.align (α := ℤ) (CustomCollater.init 4 1 0) 0 [5] [[7]]).bind
      (fun p => CustomCollater.align (CustomCollater.init 4 1 0) 1 p.1 p.2) =
      CustomCollater.align (α := ℤ) (CustomCollater.init 4 1 0) 0 [5] [[7]] :=
  aligner_passthrough_idempotent (CustomCollater.init 4 1 0) 0 1 [5] [[7]]
    (by decide) (by decide)

/-! ## Claim C7 -/

/-- Claim C7: when the audio exceeds `batch_max_steps` but the valid offset
interval is empty, the aligner fails (models the fatal
`np.random.randint` `ValueError`) for every possible draw: no silent
fallback to a crop or pass-through. -/
theorem aligner_empty_interval_fatal {α : Type} (col : CustomCollater)
    (sf : ℕ) (x : Audio α) (c : Feats α)
    (hlt : col.batch_max_steps < x.length)
    (hempty : (c.length : ℤ) - (col.batch_max_frames : ℤ) -
      (col.aux_context_window : ℤ) ≤ (col.aux_context_window : ℤ)) :
    col.align sf x c = none := by
  cases hA : assert_ready_for_upsampling x.length c.length col.hop_size 0 with
  | false => simp [CustomCollater.align, hA]
  | true =>
    simp only [CustomCollater.align, hA, Bool.not_true, Bool.false_eq_true, if_false]
    rw [if_pos hlt, if_neg]
    rintro ⟨hr1, hr2⟩
    omega

/-- Witness for C7: six audio samples over three frames at hop 2 with
context window 1 leave an empty offset interval. -/
theorem aligner_empty_interval_fatal_witness :
    CustomCollater.align (α := ℤ) (CustomCollater.init 4 2 1) 1
      [0, 0, 0, 0, 0, 0] [[0], [0], [0]] = none :=
  aligner_empty_interval_fatal (CustomCollater.init 4 2 1) 1
    [0, 0, 0, 0, 0, 0] [[0], [0], [0]] (by decide) (by decide)

/-! ## Claim C8 -/

theorem nat_max_eq_right {a b : ℕ} (h : a ≤ b) : Nat.max a b = b := by
  unfold Nat.max
  exact sup_eq_right.mpr h

/-- Claim C8: on a successful collate, noise and padded target have the same
shape, every padded conditioning item has the per-batch maximum post-crop
feature length, and the length vector has one entry per batch item, each
the pre-padding audio length of its (post-crop) item, each bounded by the
shared padded audio length. -/
theorem collater_output_shapes {α : Type} [Zero α] (col : CustomCollater)
    (draws : ℕ → ℕ) (noise : ℕ → ℕ → α) (D : ℕ)
    (batch : List (Audio α × Feats α)) (out : CollateOut α)
    (h : col.call draws noise D batch = some out) :
    ∃ nb : List (Audio α × Feats α),
      col.alignBatch draws 0 batch = some nb ∧
      out.z_batch.map List.length = out.y_batch.map List.length ∧
      (∀ cf ∈ out.c_batch,
        cf.length = (nb.map (fun b => b.2.length)).foldr Nat.max 0) ∧
      out.input_lengths = nb.map (fun b => b.1.length) ∧
      out.input_lengths.length = batch.length ∧
      (∀ row ∈ out.y_batch,
        row.length = (nb.map (fun b => b.1.length)).foldr Nat.max 0) ∧
      (∀ len ∈ out.input_lengths, ∀ row ∈ out.y_batch, len ≤ row.length) := by
  simp only [CustomCollater.call, Option.bind_eq_bind] at h
  cases ha : col.alignBatch draws 0 batch with
  | none => rw [ha] at h; simp at h
  | some nb =>
    rw [ha] at h
    simp only [Option.some_bind] at h
    cases nb with
    | nil => simp at h
    | cons b t =>
      simp only [List.isEmpty_cons, Bool.false_eq_true, if_false, pure,
        Option.some_inj] at h
      subst h
      refine ⟨b :: t, rfl, ?_, ?_, rfl, ?_, ?_, ?_⟩
      · dsimp only
        trans List.replicate (b :: t).length
          (((b :: t).map (fun b => b.1.length)).foldr Nat.max 0)
        · rw [List.eq_replicate_iff]
          refine ⟨by simp only [List.length_map, List.length_range], ?_⟩
          intro n hn
          rw [List.mem_map] at hn
          obtain ⟨row, hrow, rfl⟩ := hn
          rw [List.mem_map] at hrow
          obtain ⟨i, _, rfl⟩ := hrow
          rw [List.length_map, List.length_range]
        · symm
          rw [List.eq_replicate_iff]
          refine ⟨by simp only [List.length_map], ?_⟩
          intro n hn
          rw [List.mem_map] at hn
          obtain ⟨row, hrow, rfl⟩ := hn
          rw [List.mem_map] at hrow
          obtain ⟨p, hp, rfl⟩ := hrow
          rw [padAudio_length]
          exact nat_max_eq_right (mem_le_foldr_max (List.mem_map_of_mem _ hp))
      · intro cf hcf
        dsimp only at hcf
        rw [List.mem_map] at hcf
        obtain ⟨p, hp, rfl⟩ := hcf
        rw [pad_2darray_length]
        exact nat_max_eq_right (mem_le_foldr_max (List.mem_map_of_mem _ hp))
      · dsimp only
        rw [List.length_map]
        exact alignBatch_length col draws batch 0 (b :: t) ha
      · intro row hrow
        dsimp only at hrow
        rw [List.mem_map] at hrow
        obtain ⟨p, hp, rfl⟩ := hrow
        rw [padAudio_length]
        exact nat_max_eq_right (mem_le_foldr_max (List.mem_map_of_mem _ hp))
      · intro len hlen row hrow
        dsimp only at hlen hrow
        rw [List.mem_map] at hlen hrow
        obtain ⟨p, hp, rfl⟩ := hlen
        obtain ⟨q, hq, rfl⟩ := hrow
        rw [padAudio_length,
          nat_max_eq_right
            (mem_le_foldr_max (List.mem_map_of_mem (fun b => b.1.length) hq))]
        exact mem_le_foldr_max (List.mem_map_of_mem (fun b => b.1.length) hp)

/-- Witness for C8 at a concrete one-item batch. -/
theorem collater_output_shapes_witness :
    ∃ nb : List (Audio ℤ × Feats ℤ),
      (CustomCollater.init 4 1 0).alignBatch (fun _ => 0) 0 [([1], [[2]])] = some nb ∧
      ([[(0 : ℤ)]] : List (Audio ℤ)).map List.length =
        ([[(1 : ℤ)]] : List (Audio ℤ)).map List.length ∧
      (∀ cf ∈ ([[[(2 : ℤ)]]] : List (Feats ℤ)),
        cf.length = (nb.map (fun b => b.2.length)).foldr Nat.max 0) ∧
      ([1] : List ℕ) = nb.map (fun b => b.1.length) ∧
      ([1] : List ℕ).length = ([([1], [[2]])] : List (Audio ℤ × Feats ℤ)).length ∧
      (∀ row ∈ ([[(1 : ℤ)]] : List (Audio ℤ)),
        row.length = (nb.map (fun b => b.1.length)).foldr Nat.max 0) ∧
      (∀ len ∈ ([1] : List ℕ), ∀ row ∈ ([[(1 : ℤ)]] : List (Audio ℤ)),
        len ≤ row.length) :=
  collater_output_shapes (CustomCollater.init 4 1 0) (fun _ => 0) (fun _ _ => 0) 1
    [([1], [[2]])] ⟨[[0]], [[[2]]], [[1]], [1]⟩ (by decide)

/-! ## Claim C9 -/

theorem scenario_align1 :
    (CustomCollater.init 20480 1 2).align 0 (List.replicate 1000 (1 : ℤ))
      (List.replicate 1000 [(2 : ℤ)]) =
      some (List.replicate 1000 1, List.replicate 1000 [2]) :=
  align_pass_eq _ 0 _ _
    (by rw [List.length_replicate, List.length_replicate]
        norm_num [CustomCollater.init])
    (by rw [List.length_replicate]
        norm_num [CustomCollater.init])

theorem scenario_align2 :
    (CustomCollater.init 20480 1 2).align 0 (List.replicate 1500 (1 : ℤ))
      (List.replicate 1500 [(2 : ℤ)]) =
      some (List.replicate 1500 1, List.replicate 1500 [2]) :=
  align_pass_eq _ 0 _ _
    (by rw [List.length_replicate, List.length_replicate]
        norm_num [CustomCollater.init])
    (by rw [List.length_replicate]
        norm_num [CustomCollater.init])

theorem scenario_alignBatch :
    (CustomCollater.init 20480 1 2).alignBatch (fun _ => 0) 0
      [(List.replicate 1000 (1 : ℤ), List.replicate 1000 [(2 : ℤ)]),
        (List.replicate 1500 1, List.replicate 1500 [2])] =
      some [(List.replicate 1000 1, List.replicate 1000 [2]),
        (List.replicate 1500 1, List.replicate 1500 [2])] := by
  simp only [CustomCollater.alignBatch, scenario_align1, scenario_align2,
    Option.bind_eq_bind, Option.some_bind, pure]

/-- Claim C9: the spec scenario — a batch of two uncropped items with audio
lengths 1000 and 1500 at hop size 1; both padded audio rows come out with
length 1500, the shorter one extended with trailing zeros (position 999
still holds the original sample, positions 1000 and 1499 hold zero), and
the length vector is [1000, 1500]. -/
theorem collater_padding_scenario :
    CustomCollater.call (α := ℤ) (CustomCollater.init 20480 1 2) (fun _ => 0)
        (fun _ _ => 0) 1
        [(List.replicate 1000 1, List.replicate 1000 [2]),
          (List.replicate 1500 1, List.replicate 1500 [2])] =
      some ⟨[List.replicate 1500 0, List.replicate 1500 0],
        [List.replicate 1000 [2] ++ List.replicate 500 [0], List.replicate 1500 [2]],
        [List.replicate 1000 1 ++ List.replicate 500 0, List.replicate 1500 1],
        [1000, 1500]⟩ ∧
    (List.replicate 1000 (1 : ℤ) ++ List.replicate 500 0).length = 1500 ∧
    (List.replicate 1000 (1 : ℤ) ++ List.replicate 500 0).getD 999 0 = 1 ∧
    (List.replicate 1000 (1 : ℤ) ++ List.replicate 500 0).getD 1000 1 = 0 ∧
    (List.replicate 1000 (1 : ℤ) ++ List.replicate 500 0).getD 1499 1 = 0 := by
  refine ⟨?_, ?_, ?_, ?_, ?_⟩
  · simp only [CustomCollater.call, scenario_alignBatch, Option.bind_eq_bind,
      Option.some_bind, List.isEmpty_cons, Bool.false_eq_true, if_false,
      List.map_cons, List.map_nil, List.length_replicate, List.foldr_cons,
      List.foldr_nil, List.length_cons, List.length_nil, padAudio, pad_2darray,
      List.map_const', List.length_range, pure]
    norm_num [List.range_succ, List.replicate_one]
    rfl
  · rw [List.length_append, List.length_replicate, List.length_replicate]
  · rw [List.getD_append _ _ _ _ (by rw [List.length_replicate]; norm_num)]
    norm_num [List.getD, List.getElem?_replicate]
  · rw [List.getD_append_right _ _ _ _ (by rw [List.length_replicate]),
      List.length_replicate]
    norm_num [List.getD, List.getElem?_replicate]
  · rw [List.getD_append_right _ _ _ _ (by rw [List.length_replicate]; norm_num),
      List.length_replicate]
    norm_num [List.getD, List.getElem?_replicate]

/-! ## Claim C10 -/

/-- Claim C10: with context window 0, for every pair satisfying the raw
invariant whose audio exceeds the normalized target length, the offset
interval is non-empty and the aligner succeeds at every in-range draw:
the crop-interval failure is unreachable. -/
theorem zero_context_crop_offset_safe (bms hs sf : ℕ) {α : Type}
    (x : Audio α) (c : Feats α)
    (hhs : 0 < hs)
    (hinv : x.length = c.length * hs)
    (hlt : (CustomCollater.init bms hs 0).batch_max_steps < x.length)
    (hsf : sf + (CustomCollater.init bms hs 0).batch_max_frames < c.length) :
    (0 : ℤ) < (c.length : ℤ) - ((CustomCollater.init bms hs 0).batch_max_frames : ℤ) ∧
    ((CustomCollater.init bms hs 0).align sf x c).isSome := by
  set col := CustomCollater.init bms hs 0 with hcol
  have hw : col.aux_context_window = 0 := rfl
  have hhop : col.hop_size = hs := rfl
  have hsteq : col.batch_max_steps = col.batch_max_frames * hs := by
    rw [hcol]; exact CustomCollater.init_steps_eq bms hs 0 hhs
  constructor
  · omega
  · have hA : assert_ready_for_upsampling x.length c.length col.hop_size 0 = true := by
      simp only [assert_ready_for_upsampling, beq_iff_eq, hhop]
      push_cast [hinv]
      ring
    have hr : (col.aux_context_window : ℤ) ≤ (sf : ℤ) ∧
        (sf : ℤ) < (c.length : ℤ) - (col.batch_max_frames : ℤ) -
          (col.aux_context_window : ℤ) := by
      rw [hw]
      push_cast
      omega
    have hxlen : (pySlice x (sf * col.hop_size)
        (sf * col.hop_size + col.batch_max_steps)).length = col.batch_max_steps := by
      rw [pySlice_length]
      have hmul : (sf + col.batch_max_frames + 1) * hs ≤ c.length * hs :=
        Nat.mul_le_mul_right hs (by omega)
      have hexp : (sf + col.batch_max_frames + 1) * hs
          = sf * hs + col.batch_max_frames * hs + hs := by ring
      rw [hhop]
      omega
    have hclen : (pySlice c (sf - col.aux_context_window)
        (sf + col.aux_context_window + col.batch_max_frames)).length
        = col.batch_max_frames := by
      rw [pySlice_length, hw]
      omega
    have hA2 : assert_ready_for_upsampling
        (pySlice x (sf * col.hop_size) (sf * col.hop_size + col.batch_max_steps)).length
        (pySlice c (sf - col.aux_context_window)
          (sf + col.aux_context_window + col.batch_max_frames)).length
        col.hop_size col.aux_context_window = true := by
      simp only [assert_ready_for_upsampling, beq_iff_eq]
      rw [hxlen, hclen, hsteq, hw, hhop]
      push_cast
      ring
    rw [align_crop_eq col sf x c hA hlt hr hA2]
    rfl

/-- Witness for C10: hop 2, context window 0, an 8-sample / 4-frame pair
with target 4 samples and draw 1. -/
theorem zero_context_crop_offset_safe_witness :
    (0 : ℤ) < (([[(0 : ℤ)], [0], [0], [0]] : Feats ℤ).length : ℤ) -
      ((CustomCollater.init 4 2 0).batch_max_frames : ℤ) ∧
    ((CustomCollater.init 4 2 0).align 1
      ([0, 0, 0, 0, 0, 0, 0, 0] : Audio ℤ) [[0], [0], [0], [0]]).isSome :=
  zero_context_crop_offset_safe 4 2 1 [0, 0, 0, 0, 0, 0, 0, 0]
    [[0], [0], [0], [0]] (by decide) (by decide) (by decide) (by decide)

/-! ## Claim C3 -/

/-- Claim C3: an iteration run while
`global_steps <= discriminator_start_iter` leaves the discriminator
parameters, optimizer and scheduler completely unchanged, and the
discriminator update phase (the `discStep` collaborator, covering lines
183-193) runs exactly when `global_steps > discriminator_start_iter`. -/
theorem discriminator_gate {B G D OG OD SG SD : Type} (cfg : TrainConfig)
    (genStep : B → G × OG × SG → G × OG × SG)
    (discStep : B → G → D × OD × SD → D × OD × SD)
    (gs : ℕ) (s : NetState G D OG OD SG SD) (b : B) :
    (gs ≤ cfg.discriminator_start_iter →
      (train_inner_step cfg genStep discStep gs s b).model_d = s.model_d ∧
      (train_inner_step cfg genStep discStep gs s b).optimizer_d = s.optimizer_d ∧
      (train_inner_step cfg genStep discStep gs s b).schedular_d = s.schedular_d) ∧
    (cfg.discriminator_start_iter < gs →
      (train_inner_step cfg genStep discStep gs s b).model_d =
        (discStep b s.model_g (s.model_d, s.optimizer_d, s.schedular_d)).1 ∧
      (train_inner_step cfg genStep discStep gs s b).optimizer_d =
        (discStep b s.model_g (s.model_d, s.optimizer_d, s.schedular_d)).2.1 ∧
      (train_inner_step cfg genStep discStep gs s b).schedular_d =
        (discStep b s.model_g (s.model_d, s.optimizer_d, s.schedular_d)).2.2) := by
  constructor
  · intro h
    exact train_inner_step_disc_unchanged cfg genStep discStep gs s b h
  · intro h
    simp [train_inner_step, h]

/-- Witness for C3: a concrete iteration at `global_steps = 3` with
`discriminator_start_iter = 5` leaves the discriminator triple (2, 4, 6)
unchanged. -/
theorem discriminator_gate_witness :
    (train_inner_step (B := ℕ) ⟨5, 10⟩ (fun _ t => (t.1 + 1, t.2.1 + 1, t.2.2 + 1))
        (fun _ _ t => (t.1 + 1, t.2.1 + 1, t.2.2 + 1)) 3
        ⟨1, 2, 3, 4, 5, 6⟩ 0).model_d = 2 ∧
    (train_inner_step (B := ℕ) ⟨5, 10⟩ (fun _ t => (t.1 + 1, t.2.1 + 1, t.2.2 + 1))
        (fun _ _ t => (t.1 + 1, t.2.1 + 1, t.2.2 + 1)) 3
        ⟨1, 2, 3, 4, 5, 6⟩ 0).optimizer_d = 4 ∧
    (train_inner_step (B := ℕ) ⟨5, 10⟩ (fun _ t => (t.1 + 1, t.2.1 + 1, t.2.2 + 1))
        (fun _ _ t => (t.1 + 1, t.2.1 + 1, t.2.2 + 1)) 3
        ⟨1, 2, 3, 4, 5, 6⟩ 0).schedular_d = 6 :=
  (discriminator_gate ⟨5, 10⟩ (fun _ t => (t.1 + 1, t.2.1 + 1, t.2.2 + 1))
    (fun _ _ t => (t.1 + 1, t.2.1 + 1, t.2.2 + 1)) 3 ⟨1, 2, 3, 4, 5, 6⟩ 0).1
    (by decide)

/-! ## Claim C4 -/

/-- Claim C4 (amended): with `discriminator_start_iter = 0` the
discriminator update runs on every iteration from the second pass onward
(`global_steps >= 1`); the first pass, which runs at `global_steps = 0`,
performs no discriminator update because `0 > 0` is false. With
`discriminator_start_iter` at or above the iteration budget, discriminator
parameters, optimizer and scheduler never change across the whole run. -/
theorem discriminator_start_iter_schedule {B G D OG OD SG SD : Type}
    (cfg : TrainConfig)
    (genStep : B → G × OG × SG → G × OG × SG)
    (discStep : B → G → D × OD × SD → D × OD × SD)
    (data : ℕ → List B) (gs : ℕ) (s : NetState G D OG OD SG SD) (b : B) :
    (cfg.discriminator_start_iter = 0 → 1 ≤ gs →
      (train_inner_step cfg genStep discStep gs s b).model_d =
        (discStep b s.model_g (s.model_d, s.optimizer_d, s.schedular_d)).1) ∧
    (cfg.iters ≤ cfg.discriminator_start_iter →
      (train_loop cfg genStep discStep data 0 s).2.model_d = s.model_d ∧
      (train_loop cfg genStep discStep data 0 s).2.optimizer_d = s.optimizer_d ∧
      (train_loop cfg genStep discStep data 0 s).2.schedular_d = s.schedular_d) := by
  constructor
  · intro h0 h1
    have hgt : cfg.discriminator_start_iter < gs := by omega
    simp [train_inner_step, hgt]
  · intro h2
    exact train_loop_disc_unchanged cfg genStep discStep data 0 s (Nat.zero_le _) h2

/-- Witness for C4: at `discriminator_start_iter = 0` the second pass
(`global_steps = 1`) increments the discriminator, and with
`discriminator_start_iter = 5 >= iters = 2` a full run leaves it at 0. -/
theorem discriminator_start_iter_schedule_witness :
    (train_inner_step (B := ℕ) ⟨0, 3⟩ (fun _ t => t)
        (fun _ _ t => (t.1 + 1, t.2.1 + 1, t.2.2 + 1)) 1
        ⟨0, 0, 0, 0, 0, 0⟩ 0).model_d = 1 ∧
    (train_loop (B := ℕ) ⟨5, 2⟩ (fun _ t => t)
        (fun _ _ t => (t.1 + 1, t.2.1 + 1, t.2.2 + 1)) (fun _ => [0]) 0
        ⟨0, 0, 0, 0, 0, 0⟩).2.model_d = 0 := by
  constructor
  · exact (discriminator_start_iter_schedule ⟨0, 3⟩ (fun _ t => t)
      (fun _ _ t => (t.1 + 1, t.2.1 + 1, t.2.2 + 1)) (fun _ => [0]) 1
      ⟨0, 0, 0, 0, 0, 0⟩ 0).1 rfl (by decide)
  · exact ((discriminator_start_iter_schedule ⟨5, 2⟩ (fun _ t => t)
      (fun _ _ t => (t.1 + 1, t.2.1 + 1, t.2.2 + 1)) (fun _ => [0]) 0
      ⟨0, 0, 0, 0, 0, 0⟩ 0).2 (by decide)).1

/-- Counterexample for C4 as stated: with `discriminator_start_iter = 0` and
a one-pass budget (`iters = 1`), the whole run leaves the discriminator at
its initial value 0 even though the discriminator step maps any state
(t1, t2, t3) to (t1 + 1, ...): the first pass runs at `global_steps = 0`
and `0 > 0` is false, so no update happens during the first pass. -/
theorem discriminator_first_pass_counterexample :
    (train_loop (B := ℕ) ⟨0, 1⟩ (fun _ t => t)
        (fun _ _ t => (t.1 + 1, t.2.1 + 1, t.2.2 + 1))
        (fun _ => [0]) 0 ⟨0, 0, 0, 0, 0, 0⟩).2.model_d = 0 ∧
    ((fun (_ : ℕ) (_x : ℕ) (t : ℕ × ℕ × ℕ) => (t.1 + 1, t.2.1 + 1, t.2.2 + 1))
        0 0 ((0 : ℕ), (0 : ℕ), (0 : ℕ))).1 = 1 := by
  constructor
  · rw [train_loop]
    simp [train_epoch, train_inner_step]
  · rfl

/-! ## Claim C5 -/

/-- Claim C5: the loop is a state machine over `global_steps` alone: run
from any start value `gs` it ends at exactly `max (gs + 1) iters` (one
increment per completed pass, never more than one pass beyond reaching the
budget); started at 0 as in `main` it ends at `max 1 iters`, which is at
least `iters`, so the loop terminates for every budget (including
`iters = 0`, where the single mandatory pass still runs). -/
theorem train_loop_termination {B G D OG OD SG SD : Type} (cfg : TrainConfig)
    (genStep : B → G × OG × SG → G × OG × SG)
    (discStep : B → G → D × OD × SD → D × OD × SD)
    (data : ℕ → List B) (s : NetState G D OG OD SG SD) :
    (∀ gs, (train_loop cfg genStep discStep data gs s).1 = max (gs + 1) cfg.iters) ∧
    (train_loop cfg genStep discStep data 0 s).1 = max 1 cfg.iters ∧
    cfg.iters ≤ (train_loop cfg genStep discStep data 0 s).1 := by
  refine ⟨fun gs => train_loop_global_steps cfg genStep discStep data gs s, ?_, ?_⟩
  · rw [train_loop_global_steps cfg genStep discStep data 0 s]
  · rw [train_loop_global_steps cfg genStep discStep data 0 s]
    exact le_max_right _ _
